import Mathlib

/-!
Verification of the game-mail message service: rate limiter, message store
and mail-service orchestration, shallowly embedded from
`app/services/message_service.py` with the data model of `app/models/*` and
the configuration defaults of `app/core/config.py`.

Timestamps are modelled as integers (seconds, UTC); machine ids as naturals.
Database tables are lists of rows; every service operation is a pure
function from the database state (and the clock value `now`) to the new
state together with an `Except`-classified result, mirroring the fact that
each Python method either raises an `HTTPException` before any write or
commits all its writes at the end.
-/

/-- Rejection taxonomy of the service (HTTPException reasons of the source,
named as in the spec). -/
inductive Err where
  | NOT_FOUND
  | FORBIDDEN
  | SELF_SEND
  | INACTIVE_RECIPIENT
  | DUPLICATE
  | MIN_INTERVAL
  | RATE_MINUTE
  | RATE_HOUR
deriving DecidableEq, Repr

/-- Anti-spam configuration, fields and defaults from `app/core/config.py`. -/
structure Settings where
  MAX_MESSAGES_PER_HOUR : Nat := 50
  MAX_MESSAGES_PER_MINUTE : Nat := 10
  MIN_SECONDS_BETWEEN_MESSAGES : Nat := 3
  DUPLICATE_MESSAGE_WINDOW_SECONDS : Nat := 300
deriving DecidableEq, Repr

/-- A row of the `users` table (`app/models/user.py`); only the columns the
message service reads, plus the identity columns. -/
structure User where
  id : Nat
  username : String
  email : String
  is_active : Bool
deriving DecidableEq, Repr

/-- A row of the `messages` table (`app/models/message.py`). -/
structure Message where
  id : Nat
  sender_id : Nat
  recipient_id : Nat
  subject : String
  body : String
  is_read : Bool := false
  is_deleted_by_sender : Bool := false
  is_deleted_by_recipient : Bool := false
  created_at : Int
  read_at : Option Int := none
deriving DecidableEq, Repr

/-- A row of the `attachments` table (`app/models/attachment.py`); the JSON
payload column is kept opaque as an optional string. -/
structure Attachment where
  id : Nat
  message_id : Nat
  attachment_type : String
  item_id : Option Int := none
  item_name : Option String := none
  quantity : Rat := 1
  attachment_data : Option String := none
deriving DecidableEq, Repr

/-- Attachment part of a send request (`AttachmentCreate` schema). -/
structure AttachmentCreate where
  attachment_type : String
  item_id : Option Int := none
  item_name : Option String := none
  quantity : Rat := 1
  attachment_data : Option String := none
deriving DecidableEq, Repr

/-- A validated send request (`MessageCreate` schema). -/
structure MessageCreate where
  subject : String
  body : String
  recipient_id : Nat
  attachments : Option (List AttachmentCreate) := none
deriving DecidableEq, Repr

/-- The database state: the three tables plus the id sequences. -/
structure DB where
  users : List User
  messages : List Message
  attachments : List Attachment
  next_message_id : Nat
  next_attachment_id : Nat
deriving DecidableEq, Repr

/-- `db.query(User).filter(User.id == uid).first()`. -/
def findUser (db : DB) (uid : Nat) : Option User :=
  db.users.find? (fun u => u.id == uid)

/-- Check 1 of `_check_spam_protection`: does a message with identical
(sender, recipient, subject, body) and `created_at >= now - window` exist? -/
def duplicateHit (cfg : Settings) (msgs : List Message) (now : Int)
    (sender_id recipient_id : Nat) (subject body : String) : Bool :=
  msgs.any (fun m =>
    m.sender_id == sender_id && m.recipient_id == recipient_id &&
    m.subject == subject && m.body == body &&
    now - (cfg.DUPLICATE_MESSAGE_WINDOW_SECONDS : Int) ≤ m.created_at)

/-- The `created_at` of the sender's most recent message with
`created_at >= now - MIN_SECONDS_BETWEEN_MESSAGES`
(the `order_by(created_at.desc()).first()` of check 2). -/
def recentMessageTime (cfg : Settings) (msgs : List Message) (now : Int)
    (sender_id : Nat) : Option Int :=
  ((msgs.filter (fun m =>
    m.sender_id == sender_id &&
    now - (cfg.MIN_SECONDS_BETWEEN_MESSAGES : Int) ≤ m.created_at)).map
      (fun m => m.created_at)).max?

/-- Check 2 of `_check_spam_protection`: a recent message exists and its
elapsed time is `≥ 0` and `< MIN_SECONDS_BETWEEN_MESSAGES`. -/
def minIntervalHit (cfg : Settings) (msgs : List Message) (now : Int)
    (sender_id : Nat) : Bool :=
  match recentMessageTime cfg msgs now sender_id with
  | none => false
  | some t =>
      decide (0 ≤ now - t) &&
      decide (now - t < (cfg.MIN_SECONDS_BETWEEN_MESSAGES : Int))

/-- Check 3's count: the sender's messages with `created_at >= now - 60`. -/
def messagesLastMinute (msgs : List Message) (now : Int)
    (sender_id : Nat) : Nat :=
  (msgs.filter (fun m =>
    m.sender_id == sender_id && now - 60 ≤ m.created_at)).length

/-- Check 4's count: the sender's messages with `created_at >= now - 3600`. -/
def messagesLastHour (msgs : List Message) (now : Int)
    (sender_id : Nat) : Nat :=
  (msgs.filter (fun m =>
    m.sender_id == sender_id && now - 3600 ≤ m.created_at)).length

/-- `MessageService._check_spam_protection`: the four checks in the fixed
source order, `none` meaning the send is admitted. -/
def check_spam_protection (cfg : Settings) (msgs : List Message) (now : Int)
    (sender_id recipient_id : Nat) (subject body : String) : Option Err :=
  if duplicateHit cfg msgs now sender_id recipient_id subject body then
    some .DUPLICATE
  else if minIntervalHit cfg msgs now sender_id then
    some .MIN_INTERVAL
  else if cfg.MAX_MESSAGES_PER_MINUTE ≤ messagesLastMinute msgs now sender_id then
    some .RATE_MINUTE
  else if cfg.MAX_MESSAGES_PER_HOUR ≤ messagesLastHour msgs now sender_id then
    some .RATE_HOUR
  else
    none

/-- Builds the attachment rows of a send, consecutive ids from `firstId`,
all owned by `message_id` (the loop over `message_data.attachments`). -/
def mkAttachments (firstId message_id : Nat) :
    List AttachmentCreate → List Attachment
  | [] => []
  | a :: rest =>
      { id := firstId, message_id := message_id,
        attachment_type := a.attachment_type, item_id := a.item_id,
        item_name := a.item_name, quantity := a.quantity,
        attachment_data := a.attachment_data } ::
      mkAttachments (firstId + 1) message_id rest

/-- `MessageService.create_message`: recipient validation, self-send check,
spam checks, then the atomic insert of the message and its attachments. -/
def create_message (cfg : Settings) (db : DB) (now : Int)
    (message_data : MessageCreate) (sender_id : Nat) :
    DB × Except Err Message :=
  match findUser db message_data.recipient_id with
  | none => (db, .error .NOT_FOUND)
  | some recipient =>
    if !recipient.is_active then (db, .error .INACTIVE_RECIPIENT)
    else if sender_id == message_data.recipient_id then
      (db, .error .SELF_SEND)
    else
      match check_spam_protection cfg db.messages now sender_id
          message_data.recipient_id message_data.subject message_data.body with
      | some e => (db, .error e)
      | none =>
        let msg : Message :=
          { id := db.next_message_id, sender_id := sender_id,
            recipient_id := message_data.recipient_id,
            subject := message_data.subject, body := message_data.body,
            created_at := now }
        let newAtts := mkAttachments db.next_attachment_id msg.id
          (message_data.attachments.getD [])
        ({ users := db.users, messages := db.messages ++ [msg],
           attachments := db.attachments ++ newAtts,
           next_message_id := db.next_message_id + 1,
           next_attachment_id := db.next_attachment_id + newAtts.length },
         .ok msg)

/-- Inserts a message before the first stored message with a strictly
smaller `created_at` (descending order). -/
def insertDesc (m : Message) : List Message → List Message
  | [] => [m]
  | y :: ys =>
      if y.created_at ≤ m.created_at then m :: y :: ys
      else y :: insertDesc m ys

/-- `order_by(Message.created_at.desc())`: sorts by `created_at`,
newest first. -/
def sortByCreatedDesc : List Message → List Message
  | [] => []
  | m :: rest => insertDesc m (sortByCreatedDesc rest)

/-- `MessageService.get_inbox_messages`. -/
def get_inbox_messages (db : DB) (user_id skip limit : Nat)
    (unread_only : Bool) : List Message :=
  let q := db.messages.filter (fun m =>
    m.recipient_id == user_id && m.is_deleted_by_recipient == false)
  let q := if unread_only then q.filter (fun m => m.is_read == false) else q
  (((sortByCreatedDesc q).drop skip).take limit)

/-- `MessageService.get_sent_messages`. -/
def get_sent_messages (db : DB) (user_id skip limit : Nat) : List Message :=
  let q := db.messages.filter (fun m =>
    m.sender_id == user_id && m.is_deleted_by_sender == false)
  (((sortByCreatedDesc q).drop skip).take limit)

/-- `MessageService.get_message_by_id`: point lookup with the access and
per-party soft-deletion checks, in source order. -/
def get_message_by_id (db : DB) (message_id user_id : Nat) :
    Except Err Message :=
  match db.messages.find? (fun m => m.id == message_id) with
  | none => .error .NOT_FOUND
  | some message =>
    if message.sender_id != user_id && message.recipient_id != user_id then
      .error .FORBIDDEN
    else if message.sender_id == user_id && message.is_deleted_by_sender then
      .error .NOT_FOUND
    else if message.recipient_id == user_id && message.is_deleted_by_recipient then
      .error .NOT_FOUND
    else
      .ok message

/-- Writes back a modified row: every stored message with the row's id is
replaced by the row (the ORM flush of a mutated attribute). -/
def updateMessage (db : DB) (m : Message) : DB :=
  { db with messages := db.messages.map (fun x => if x.id == m.id then m else x) }

/-- `MessageService.mark_as_read`. -/
def mark_as_read (db : DB) (now : Int) (message_id user_id : Nat) :
    DB × Except Err Message :=
  match get_message_by_id db message_id user_id with
  | .error e => (db, .error e)
  | .ok message =>
    if message.recipient_id != user_id then (db, .error .FORBIDDEN)
    else if !message.is_read then
      let m' := { message with is_read := true, read_at := some now }
      (updateMessage db m', .ok m')
    else
      (db, .ok message)

/-- `MessageService.delete_message` (soft delete). -/
def delete_message (db : DB) (message_id user_id : Nat) :
    DB × Except Err Unit :=
  match get_message_by_id db message_id user_id with
  | .error e => (db, .error e)
  | .ok message =>
    if message.sender_id == user_id then
      (updateMessage db { message with is_deleted_by_sender := true }, .ok ())
    else if message.recipient_id == user_id then
      (updateMessage db { message with is_deleted_by_recipient := true }, .ok ())
    else
      (db, .ok ())

/-! ## Helper lemmas -/

theorem duplicateHit_iff (cfg : Settings) (msgs : List Message) (now : Int)
    (s r : Nat) (subject body : String) :
    duplicateHit cfg msgs now s r subject body = true ↔
      ∃ m ∈ msgs, m.sender_id = s ∧ m.recipient_id = r ∧
        m.subject = subject ∧ m.body = body ∧
        now - (cfg.DUPLICATE_MESSAGE_WINDOW_SECONDS : Int) ≤ m.created_at := by
  simp [duplicateHit, List.any_eq_true, and_assoc]

/-! ## Claims -/

/-- C1: the duplicate-suppression check rejects with DUPLICATE iff a prior
message with identical (sender, recipient, subject, body) exists whose
`created_at` lies within the last `DUPLICATE_MESSAGE_WINDOW_SECONDS` of
`now` (`created_at ≥ now - window`); an identical message strictly older
than the window does not trigger DUPLICATE, and the send is admitted when
the other three checks also pass. -/
theorem duplicate_suppression_window_iff (cfg : Settings) (msgs : List Message)
    (now : Int) (s r : Nat) (subject body : String) :
    (check_spam_protection cfg msgs now s r subject body = some Err.DUPLICATE ↔
      ∃ m ∈ msgs, m.sender_id = s ∧ m.recipient_id = r ∧
        m.subject = subject ∧ m.body = body ∧
        now - (cfg.DUPLICATE_MESSAGE_WINDOW_SECONDS : Int) ≤ m.created_at) ∧
    ((∀ m ∈ msgs, m.sender_id = s → m.recipient_id = r → m.subject = subject →
        m.body = body →
        m.created_at < now - (cfg.DUPLICATE_MESSAGE_WINDOW_SECONDS : Int)) →
      minIntervalHit cfg msgs now s = false →
      messagesLastMinute msgs now s < cfg.MAX_MESSAGES_PER_MINUTE →
      messagesLastHour msgs now s < cfg.MAX_MESSAGES_PER_HOUR →
      check_spam_protection cfg msgs now s r subject body = none) := by
  constructor
  · rw [← duplicateHit_iff]
    unfold check_spam_protection
    cases h : duplicateHit cfg msgs now s r subject body with
    | true => simp
    | false => simp only [Bool.false_eq_true, if_false]; split_ifs <;> simp
  · intro hno hmin h3 h4
    have hd : duplicateHit cfg msgs now s r subject body = false := by
      rcases h : duplicateHit cfg msgs now s r subject body with _ | _
      · rfl
      · obtain ⟨m, hm, h1, h2, hsub, hb, hw⟩ := (duplicateHit_iff cfg msgs now s r subject body).mp h
        exact absurd hw (not_le.mpr (hno m hm h1 h2 hsub hb))
    simp [check_spam_protection, hd, hmin, Nat.not_le.mpr h3, Nat.not_le.mpr h4]

/-- A message from user 1 to user 2 sent at time 699, i.e. 301 seconds
before the evaluation time 1000 of the witness below. -/
def msgAt699 : Message :=
  { id := 1, sender_id := 1, recipient_id := 2, subject := "Hi", body := "b",
    created_at := 699 }

/-- C1 witness: an identical message sent 301 seconds earlier does not
trigger DUPLICATE and the send is admitted. -/
theorem duplicate_suppression_window_iff_witness :
    (∀ m ∈ [msgAt699], m.sender_id = 1 → m.recipient_id = 2 →
      m.subject = "Hi" → m.body = "b" →
      m.created_at < 1000 - (({} : Settings).DUPLICATE_MESSAGE_WINDOW_SECONDS : Int)) ∧
    minIntervalHit {} [msgAt699] 1000 1 = false ∧
    check_spam_protection {} [msgAt699] 1000 1 2 "Hi" "b" = none :=
  ⟨by decide, by decide,
    (duplicate_suppression_window_iff {} [msgAt699] 1000 1 2 "Hi" "b").2
      (by decide) (by decide) (by decide) (by decide)⟩

/-- C2: the four checks are evaluated in the fixed order duplicate,
minimum interval, per-minute cap, per-hour cap, and the first failing
check determines the rejection; in particular a send that is both a
duplicate and over a rate cap rejects DUPLICATE. -/
theorem spam_checks_first_failing_wins (cfg : Settings) (msgs : List Message)
    (now : Int) (s r : Nat) (subject body : String) :
    (duplicateHit cfg msgs now s r subject body = true →
      check_spam_protection cfg msgs now s r subject body = some Err.DUPLICATE) ∧
    (duplicateHit cfg msgs now s r subject body = false →
      minIntervalHit cfg msgs now s = true →
      check_spam_protection cfg msgs now s r subject body = some Err.MIN_INTERVAL) ∧
    (duplicateHit cfg msgs now s r subject body = false →
      minIntervalHit cfg msgs now s = false →
      cfg.MAX_MESSAGES_PER_MINUTE ≤ messagesLastMinute msgs now s →
      check_spam_protection cfg msgs now s r subject body = some Err.RATE_MINUTE) ∧
    (duplicateHit cfg msgs now s r subject body = false →
      minIntervalHit cfg msgs now s = false →
      messagesLastMinute msgs now s < cfg.MAX_MESSAGES_PER_MINUTE →
      cfg.MAX_MESSAGES_PER_HOUR ≤ messagesLastHour msgs now s →
      check_spam_protection cfg msgs now s r subject body = some Err.RATE_HOUR) := by
  refine ⟨fun h1 => ?_, fun h1 h2 => ?_, fun h1 h2 h3 => ?_, fun h1 h2 h3 h4 => ?_⟩
  · simp [check_spam_protection, h1]
  · simp [check_spam_protection, h1, h2]
  · simp [check_spam_protection, h1, h2, h3]
  · simp [check_spam_protection, h1, h2, Nat.not_le.mpr h3, h4]

/-- A history of ten identical messages in the last minute: both the
duplicate condition and the per-minute cap condition hold. -/
def msgsBothFailing : List Message :=
  (List.range 10).map (fun i =>
    { id := i, sender_id := 1, recipient_id := 2, subject := "s", body := "b",
      created_at := 940 + (i : Int) })

/-- C2 witness: simultaneously duplicate and over the per-minute cap, and
the rejection is DUPLICATE. -/
theorem spam_checks_first_failing_wins_witness :
    duplicateHit {} msgsBothFailing 1000 1 2 "s" "b" = true ∧
    ({} : Settings).MAX_MESSAGES_PER_MINUTE ≤ messagesLastMinute msgsBothFailing 1000 1 ∧
    check_spam_protection {} msgsBothFailing 1000 1 2 "s" "b" = some Err.DUPLICATE :=
  ⟨by decide, by decide,
    (spam_checks_first_failing_wins {} msgsBothFailing 1000 1 2 "s" "b").1 (by decide)⟩

/-- Characterizes the most recent in-window timestamp of check 2: it is a
sender message's `created_at`, lies in the window, and bounds every other
in-window sender message. -/
theorem recentMessageTime_eq_some_iff (cfg : Settings) (msgs : List Message)
    (now : Int) (s : Nat) (t : Int) :
    recentMessageTime cfg msgs now s = some t ↔
      (∃ m ∈ msgs, m.sender_id = s ∧
        now - (cfg.MIN_SECONDS_BETWEEN_MESSAGES : Int) ≤ m.created_at ∧
        m.created_at = t) ∧
      (∀ m ∈ msgs, m.sender_id = s →
        now - (cfg.MIN_SECONDS_BETWEEN_MESSAGES : Int) ≤ m.created_at →
        m.created_at ≤ t) := by
  have : Std.Antisymm ((· : Int) ≤ ·) :=
    ⟨fun hab hba => Int.le_antisymm hab hba⟩
  unfold recentMessageTime
  rw [List.max?_eq_some_iff (fun a => le_refl a) (fun a b => max_choice a b)
    (fun a b c => max_le_iff)]
  simp only [List.mem_map, List.mem_filter, Bool.and_eq_true, beq_iff_eq,
    decide_eq_true_eq]
  constructor
  · rintro ⟨⟨m, ⟨hm, hs, hw⟩, hct⟩, hb⟩
    exact ⟨⟨m, hm, hs, hw, hct⟩,
      fun m' hm' hs' hw' => hb m'.created_at ⟨m', ⟨hm', hs', hw'⟩, rfl⟩⟩
  · rintro ⟨⟨m, hm, hs, hw, hct⟩, hb⟩
    refine ⟨⟨m, ⟨hm, hs, hw⟩, hct⟩, ?_⟩
    rintro b ⟨m', ⟨hm', hs', hw'⟩, hct'⟩
    exact hct' ▸ hb m' hm' hs' hw'

/-- C3: MIN_INTERVAL is signalled iff no duplicate fired and the minimum
interval check fires; the minimum interval check fires iff the most recent
in-window sender message has elapsed time in `[0, MIN_SECONDS_BETWEEN_MESSAGES)`;
a most recent message with negative elapsed time (clock skew) never
triggers the check; equivalently, the check fires iff some sender message
has elapsed time in the interval and no sender message is dated in the
future. -/
theorem min_interval_rejection_iff (cfg : Settings) (msgs : List Message)
    (now : Int) (s r : Nat) (subject body : String) :
    (check_spam_protection cfg msgs now s r subject body = some Err.MIN_INTERVAL ↔
      duplicateHit cfg msgs now s r subject body = false ∧
      minIntervalHit cfg msgs now s = true) ∧
    (∀ t, recentMessageTime cfg msgs now s = some t →
      (minIntervalHit cfg msgs now s = true ↔
        0 ≤ now - t ∧ now - t < (cfg.MIN_SECONDS_BETWEEN_MESSAGES : Int))) ∧
    (∀ t, recentMessageTime cfg msgs now s = some t → now - t < 0 →
      minIntervalHit cfg msgs now s = false) ∧
    (minIntervalHit cfg msgs now s = true ↔
      (∃ m ∈ msgs, m.sender_id = s ∧ 0 ≤ now - m.created_at ∧
        now - m.created_at < (cfg.MIN_SECONDS_BETWEEN_MESSAGES : Int)) ∧
      ∀ m ∈ msgs, m.sender_id = s → 0 ≤ now - m.created_at) := by
  have hI : (0 : Int) ≤ (cfg.MIN_SECONDS_BETWEEN_MESSAGES : Int) :=
    Int.natCast_nonneg _
  refine ⟨?_, ?_, ?_, ?_⟩
  · unfold check_spam_protection
    cases hd : duplicateHit cfg msgs now s r subject body with
    | true => simp
    | false =>
      cases hm : minIntervalHit cfg msgs now s with
      | true => simp
      | false =>
        simp only [Bool.false_eq_true, if_false]
        split_ifs <;> simp
  · intro t ht
    unfold minIntervalHit
    rw [ht]
    simp
  · intro t ht hneg
    unfold minIntervalHit
    rw [ht]
    simp only [Bool.and_eq_true, decide_eq_true_eq]
    simp only [Bool.and_eq_false_iff, decide_eq_false_iff_not, not_le, not_lt]
    left
    exact hneg
  · constructor
    · intro h
      unfold minIntervalHit at h
      cases ht : recentMessageTime cfg msgs now s with
      | none => rw [ht] at h; simp at h
      | some t =>
        rw [ht] at h
        simp only [Bool.and_eq_true, decide_eq_true_eq] at h
        obtain ⟨h0, h1⟩ := h
        obtain ⟨⟨m0, hm0, hs0, hw0, hc0⟩, hmax⟩ :=
          (recentMessageTime_eq_some_iff cfg msgs now s t).mp ht
        refine ⟨⟨m0, hm0, hs0, by omega, by omega⟩, ?_⟩
        intro m hm hs
        by_cases hw : now - (cfg.MIN_SECONDS_BETWEEN_MESSAGES : Int) ≤ m.created_at
        · have := hmax m hm hs hw
          omega
        · omega
    · rintro ⟨⟨m0, hm0, hs0, h0, h1⟩, hall⟩
      cases ht : recentMessageTime cfg msgs now s with
      | none =>
        exfalso
        unfold recentMessageTime at ht
        rw [List.max?_eq_none_iff, List.map_eq_nil_iff] at ht
        have : m0 ∈ (msgs.filter (fun m =>
            m.sender_id == s &&
            decide (now - (cfg.MIN_SECONDS_BETWEEN_MESSAGES : Int) ≤ m.created_at))) := by
          rw [List.mem_filter]
          refine ⟨hm0, ?_⟩
          simp only [Bool.and_eq_true, beq_iff_eq, decide_eq_true_eq]
          exact ⟨hs0, by omega⟩
        rw [ht] at this
        simp at this
      | some t =>
        unfold minIntervalHit
        rw [ht]
        simp only [Bool.and_eq_true, decide_eq_true_eq]
        obtain ⟨⟨m1, hm1, hs1, hw1, hc1⟩, hmax⟩ :=
          (recentMessageTime_eq_some_iff cfg msgs now s t).mp ht
        have ht0 : 0 ≤ now - t := hc1 ▸ hall m1 hm1 hs1
        have hm0w : m0.created_at ≤ t := hmax m0 hm0 hs0 (by omega)
        exact ⟨ht0, by omega⟩

/-- A message from user 1 dated 5 seconds in the future of the witness
evaluation time 1000 (clock skew). -/
def msgFuture : Message :=
  { id := 1, sender_id := 1, recipient_id := 2, subject := "s", body := "b",
    created_at := 1005 }

/-- C3 witness: a most recent message with negative elapsed time does not
trigger the minimum-interval rejection. -/
theorem min_interval_rejection_iff_witness :
    recentMessageTime {} [msgFuture] 1000 1 = some 1005 ∧
    (1000 - 1005 : Int) < 0 ∧
    minIntervalHit {} [msgFuture] 1000 1 = false :=
  ⟨by decide, by decide,
    (min_interval_rejection_iff {} [msgFuture] 1000 1 2 "s" "b").2.2.1 1005
      (by decide) (by decide)⟩

/-- C4: RATE_MINUTE is signalled iff neither earlier check fired and the
count of the sender's messages (to any recipient) with `created_at` within
the last 60 seconds of `now` is at least `MAX_MESSAGES_PER_MINUTE`; the
count is exactly that of the sender's messages with elapsed time at most
60 seconds; when the count is below the cap (and the other checks pass)
the send is admitted. -/
theorem rate_minute_rejection_iff (cfg : Settings) (msgs : List Message)
    (now : Int) (s r : Nat) (subject body : String) :
    (check_spam_protection cfg msgs now s r subject body = some Err.RATE_MINUTE ↔
      duplicateHit cfg msgs now s r subject body = false ∧
      minIntervalHit cfg msgs now s = false ∧
      cfg.MAX_MESSAGES_PER_MINUTE ≤ messagesLastMinute msgs now s) ∧
    (messagesLastMinute msgs now s =
      (msgs.filter (fun m =>
        decide (m.sender_id = s ∧ now - m.created_at ≤ 60))).length) ∧
    (duplicateHit cfg msgs now s r subject body = false →
      minIntervalHit cfg msgs now s = false →
      messagesLastMinute msgs now s < cfg.MAX_MESSAGES_PER_MINUTE →
      messagesLastHour msgs now s < cfg.MAX_MESSAGES_PER_HOUR →
      check_spam_protection cfg msgs now s r subject body = none) := by
  refine ⟨?_, ?_, ?_⟩
  · unfold check_spam_protection
    cases hd : duplicateHit cfg msgs now s r subject body with
    | true => simp
    | false =>
      cases hm : minIntervalHit cfg msgs now s with
      | true => simp
      | false =>
        simp only [Bool.false_eq_true, if_false]
        split_ifs with h1 h2 <;> simp [h1]
  · unfold messagesLastMinute
    refine congrArg List.length (List.filter_congr ?_)
    intro m _
    have hiff : (now - 60 ≤ m.created_at) ↔ (now - m.created_at ≤ 60) := by omega
    by_cases h1 : m.sender_id = s
    · simp [h1, hiff]
    · simp [h1]
  · intro hd hm h3 h4
    simp [check_spam_protection, hd, hm, Nat.not_le.mpr h3, Nat.not_le.mpr h4]

/-- Ten messages from user 1 to ten different recipients, sent at times
940 through 949. -/
def msgsTenRecipients : List Message :=
  (List.range 10).map (fun i =>
    { id := i, sender_id := 1, recipient_id := 3 + i, subject := "s",
      body := "b", created_at := 940 + (i : Int) })

/-- C4 witness: the eleventh send inside the minute window rejects
RATE_MINUTE, and the same send is admitted once the oldest message has
fallen outside the 60-second window. -/
theorem rate_minute_rejection_iff_witness :
    duplicateHit {} msgsTenRecipients 1000 1 2 "Hi" "x" = false ∧
    minIntervalHit {} msgsTenRecipients 1000 1 = false ∧
    ({} : Settings).MAX_MESSAGES_PER_MINUTE ≤ messagesLastMinute msgsTenRecipients 1000 1 ∧
    check_spam_protection {} msgsTenRecipients 1000 1 2 "Hi" "x" = some Err.RATE_MINUTE ∧
    messagesLastMinute msgsTenRecipients 1061 1 < ({} : Settings).MAX_MESSAGES_PER_MINUTE ∧
    check_spam_protection {} msgsTenRecipients 1061 1 2 "Hi" "x" = none :=
  ⟨by decide, by decide, by decide,
    (rate_minute_rejection_iff {} msgsTenRecipients 1000 1 2 "Hi" "x").1.mpr
      ⟨by decide, by decide, by decide⟩,
    by decide,
    (rate_minute_rejection_iff {} msgsTenRecipients 1061 1 2 "Hi" "x").2.2
      (by decide) (by decide) (by decide) (by decide)⟩

theorem get_message_by_id_ok_iff (db : DB) (mid uid : Nat) (m : Message) :
    get_message_by_id db mid uid = .ok m ↔
      db.messages.find? (fun x => x.id == mid) = some m ∧
      (m.sender_id = uid ∨ m.recipient_id = uid) ∧
      (m.sender_id = uid → m.is_deleted_by_sender = false) ∧
      (m.recipient_id = uid → m.is_deleted_by_recipient = false) := by
  unfold get_message_by_id
  cases hf : db.messages.find? (fun x => x.id == mid) with
  | none => simp
  | some msg =>
    simp only [Option.some.injEq]
    by_cases hs : msg.sender_id = uid <;> by_cases hr : msg.recipient_id = uid <;>
      by_cases hds : msg.is_deleted_by_sender = true <;>
      by_cases hdr : msg.is_deleted_by_recipient = true <;>
      simp only [hs, hr, hds, hdr, bne_self_eq_false, Bool.false_and,
        Bool.and_false, Bool.and_true, Bool.true_and, Bool.false_eq_true,
        if_false, if_true, bne_iff_ne, ne_eq, not_true_eq_false,
        not_false_eq_true, beq_self_eq_true, beq_iff_eq] <;>
      constructor <;>
      first
        | (rintro rfl; simp_all)
        | (rintro ⟨rfl, h2⟩; simp_all)
        | (intro h; simp_all)

theorem get_message_by_id_forbidden_iff (db : DB) (mid uid : Nat) :
    get_message_by_id db mid uid = .error Err.FORBIDDEN ↔
      ∃ m, db.messages.find? (fun x => x.id == mid) = some m ∧
        m.sender_id ≠ uid ∧ m.recipient_id ≠ uid := by
  unfold get_message_by_id
  cases hf : db.messages.find? (fun x => x.id == mid) with
  | none => simp
  | some msg =>
    simp only [Option.some.injEq]
    by_cases hs : msg.sender_id = uid <;> by_cases hr : msg.recipient_id = uid <;>
      by_cases hds : msg.is_deleted_by_sender = true <;>
      by_cases hdr : msg.is_deleted_by_recipient = true <;>
      simp_all

theorem get_message_by_id_notfound_iff (db : DB) (mid uid : Nat) :
    get_message_by_id db mid uid = .error Err.NOT_FOUND ↔
      db.messages.find? (fun x => x.id == mid) = none ∨
      ∃ m, db.messages.find? (fun x => x.id == mid) = some m ∧
        ((m.sender_id = uid ∧ m.is_deleted_by_sender = true) ∨
         (m.recipient_id = uid ∧ m.is_deleted_by_recipient = true)) := by
  unfold get_message_by_id
  cases hf : db.messages.find? (fun x => x.id == mid) with
  | none => simp
  | some msg =>
    simp only [Option.some.injEq, reduceCtorEq, false_or]
    by_cases hs : msg.sender_id = uid <;> by_cases hr : msg.recipient_id = uid <;>
      by_cases hds : msg.is_deleted_by_sender = true <;>
      by_cases hdr : msg.is_deleted_by_recipient = true <;>
      simp_all

/-- C5: GetById returns the message iff the viewer is a party whose own
deletion flag is false; it fails FORBIDDEN exactly when the message exists
but the viewer is neither sender nor recipient; and it fails NOT_FOUND
both when no such message exists and when the viewer is a party whose own
deletion flag is true (the two cases produce the same error). -/
theorem get_by_id_access_cases (db : DB) (mid uid : Nat) :
    (∀ m : Message, get_message_by_id db mid uid = .ok m ↔
      db.messages.find? (fun x => x.id == mid) = some m ∧
      (m.sender_id = uid ∨ m.recipient_id = uid) ∧
      (m.sender_id = uid → m.is_deleted_by_sender = false) ∧
      (m.recipient_id = uid → m.is_deleted_by_recipient = false)) ∧
    (get_message_by_id db mid uid = .error Err.FORBIDDEN ↔
      ∃ m, db.messages.find? (fun x => x.id == mid) = some m ∧
        m.sender_id ≠ uid ∧ m.recipient_id ≠ uid) ∧
    (get_message_by_id db mid uid = .error Err.NOT_FOUND ↔
      db.messages.find? (fun x => x.id == mid) = none ∨
      ∃ m, db.messages.find? (fun x => x.id == mid) = some m ∧
        ((m.sender_id = uid ∧ m.is_deleted_by_sender = true) ∨
         (m.recipient_id = uid ∧ m.is_deleted_by_recipient = true))) :=
  ⟨fun m => get_message_by_id_ok_iff db mid uid m,
   get_message_by_id_forbidden_iff db mid uid,
   get_message_by_id_notfound_iff db mid uid⟩

/-- A message whose recipient has soft-deleted it. -/
def msgDelR : Message :=
  { id := 1, sender_id := 1, recipient_id := 2, subject := "s", body := "b",
    created_at := 0, is_deleted_by_recipient := true }

/-- A one-message store holding `msgDelR`. -/
def dbDelR : DB :=
  { users := [], messages := [msgDelR], attachments := [],
    next_message_id := 2, next_attachment_id := 1 }

/-- C5 witness: a third party gets FORBIDDEN, the deleted-for-self
recipient and a missing id both get NOT_FOUND, the sender still gets the
message. -/
theorem get_by_id_access_cases_witness :
    get_message_by_id dbDelR 1 3 = .error Err.FORBIDDEN ∧
    get_message_by_id dbDelR 1 2 = .error Err.NOT_FOUND ∧
    get_message_by_id dbDelR 99 2 = .error Err.NOT_FOUND ∧
    get_message_by_id dbDelR 1 1 = .ok msgDelR :=
  ⟨(get_by_id_access_cases dbDelR 1 3).2.1.mpr
      ⟨msgDelR, by decide, by decide, by decide⟩,
   (get_by_id_access_cases dbDelR 1 2).2.2.mpr
      (Or.inr ⟨msgDelR, by decide, Or.inr ⟨by decide, by decide⟩⟩),
   (get_by_id_access_cases dbDelR 99 2).2.2.mpr (Or.inl (by decide)),
   ((get_by_id_access_cases dbDelR 1 1).1 msgDelR).mpr
      ⟨by decide, Or.inl (by decide), by decide, by decide⟩⟩

/-- Writing back a row whose id is `mid` does not change which position
`find?` selects: the found row is just rewritten. -/
theorem find?_updateMessage (db : DB) (m' : Message) (mid : Nat) :
    (updateMessage db m').messages.find? (fun x => x.id == mid) =
      (db.messages.find? (fun x => x.id == mid)).map
        (fun x => if x.id == m'.id then m' else x) := by
  have hpf : ((fun x : Message => x.id == mid) ∘
      (fun x => if x.id == m'.id then m' else x)) =
      (fun x : Message => x.id == mid) := by
    funext x
    by_cases hx : x.id = m'.id
    · simp [Function.comp, hx]
    · simp [Function.comp, hx]
  unfold updateMessage
  simp only
  rw [List.find?_map, hpf]

/-- C6: a first successful MarkRead on an unread message sets
`is_read = true` and `read_at` to that call's clock value, and every later
MarkRead call by the recipient returns the same state and the same message:
`read_at` is written exactly once, on the unread-to-read transition. -/
theorem mark_as_read_idempotent (db : DB) (now1 : Int) (mid uid : Nat)
    (m m1 : Message) (db1 : DB)
    (hunread : m.is_read = false)
    (hfind : db.messages.find? (fun x => x.id == mid) = some m)
    (hcall : mark_as_read db now1 mid uid = (db1, .ok m1)) :
    m1.is_read = true ∧ m1.read_at = some now1 ∧
    ∀ now2 : Int, mark_as_read db1 now2 mid uid = (db1, .ok m1) := by
  cases hg : get_message_by_id db mid uid with
  | error e =>
    unfold mark_as_read at hcall
    rw [hg] at hcall
    simp [Prod.ext_iff] at hcall
  | ok message =>
    obtain ⟨hfm, hparty, hfs, hfr⟩ :=
      (get_message_by_id_ok_iff db mid uid message).mp hg
    have hmm : message = m := by
      rw [hfind] at hfm
      exact (Option.some.inj hfm).symm
    subst hmm
    by_cases hru : message.recipient_id = uid
    · have hres : mark_as_read db now1 mid uid =
          (updateMessage db { message with is_read := true, read_at := some now1 },
           .ok { message with is_read := true, read_at := some now1 }) := by
        unfold mark_as_read
        rw [hg]
        simp [hru, hunread]
      rw [hres] at hcall
      simp only [Prod.mk.injEq, Except.ok.injEq] at hcall
      obtain ⟨hdb1, hm1⟩ := hcall
      subst hm1
      subst hdb1
      refine ⟨rfl, rfl, ?_⟩
      intro now2
      have hfind1 : (updateMessage db
          { message with is_read := true, read_at := some now1 }).messages.find?
            (fun x => x.id == mid) =
          some { message with is_read := true, read_at := some now1 } := by
        rw [find?_updateMessage, hfind]
        simp
      have hg2 : get_message_by_id
          (updateMessage db { message with is_read := true, read_at := some now1 })
          mid uid = .ok { message with is_read := true, read_at := some now1 } := by
        rw [get_message_by_id_ok_iff]
        exact ⟨hfind1, Or.inr hru, fun h => hfs h, fun h => hfr h⟩
      unfold mark_as_read
      rw [hg2]
      simp [hru]
    · have hres : mark_as_read db now1 mid uid = (db, .error Err.FORBIDDEN) := by
        unfold mark_as_read
        rw [hg]
        simp [hru]
      rw [hres] at hcall
      simp [Prod.ext_iff] at hcall

/-- An unread message from user 1 to user 2. -/
def msgUnread : Message :=
  { id := 1, sender_id := 1, recipient_id := 2, subject := "s", body := "b",
    created_at := 0 }

/-- A one-message store holding `msgUnread`. -/
def dbUnread : DB :=
  { users := [], messages := [msgUnread], attachments := [],
    next_message_id := 2, next_attachment_id := 1 }

/-- `msgUnread` after being read at time 100. -/
def msgRead100 : Message :=
  { msgUnread with is_read := true, read_at := some 100 }

/-- `dbUnread` after `msgUnread` was read at time 100. -/
def dbRead100 : DB :=
  { dbUnread with messages := [msgRead100] }

/-- C6 witness: the first MarkRead at time 100 stores `read_at = 100`; a
second MarkRead at time 200 changes nothing. -/
theorem mark_as_read_idempotent_witness :
    msgUnread.is_read = false ∧
    dbUnread.messages.find? (fun x => x.id == 1) = some msgUnread ∧
    mark_as_read dbUnread 100 1 2 = (dbRead100, .ok msgRead100) ∧
    mark_as_read dbRead100 200 1 2 = (dbRead100, .ok msgRead100) :=
  ⟨by decide, by decide, by rfl,
   (mark_as_read_idempotent dbUnread 100 1 2 msgUnread msgRead100 dbRead100
      (by decide) (by decide) (by rfl)).2.2 200⟩

theorem insertDesc_map (f : Message → Message)
    (hf : ∀ x, (f x).created_at = x.created_at) (a : Message) :
    ∀ l : List Message, insertDesc (f a) (l.map f) = (insertDesc a l).map f := by
  intro l
  induction l with
  | nil => simp [insertDesc]
  | cons y ys ih =>
    by_cases h : y.created_at ≤ a.created_at
    · simp [insertDesc, hf, h]
    · simp [insertDesc, hf, h, ih]

theorem sortByCreatedDesc_map (f : Message → Message)
    (hf : ∀ x, (f x).created_at = x.created_at) :
    ∀ l : List Message,
      sortByCreatedDesc (l.map f) = (sortByCreatedDesc l).map f := by
  intro l
  induction l with
  | nil => simp [sortByCreatedDesc]
  | cons a l ih => simp [sortByCreatedDesc, ih, insertDesc_map f hf]

theorem mem_insertDesc {x a : Message} :
    ∀ {l : List Message}, x ∈ insertDesc a l ↔ x = a ∨ x ∈ l := by
  intro l
  induction l with
  | nil => simp [insertDesc]
  | cons y ys ih =>
    by_cases h : y.created_at ≤ a.created_at
    · simp [insertDesc, h]
    · simp only [insertDesc, h, if_false, List.mem_cons, ih]
      tauto

theorem mem_sortByCreatedDesc {x : Message} :
    ∀ {l : List Message}, x ∈ sortByCreatedDesc l ↔ x ∈ l := by
  intro l
  induction l with
  | nil => simp [sortByCreatedDesc]
  | cons a l ih => simp [sortByCreatedDesc, mem_insertDesc, ih]

/-- Every message returned by `get_sent_messages` is a stored message of
the caller with its sender-deletion flag clear. -/
theorem mem_get_sent_messages {x : Message} {db : DB} {uid skip limit : Nat}
    (h : x ∈ get_sent_messages db uid skip limit) :
    x ∈ db.messages ∧ x.sender_id = uid ∧ x.is_deleted_by_sender = false := by
  unfold get_sent_messages at h
  have h2 := List.mem_of_mem_drop (List.mem_of_mem_take h)
  rw [mem_sortByCreatedDesc, List.mem_filter] at h2
  obtain ⟨hmem, hp⟩ := h2
  simp only [Bool.and_eq_true, beq_iff_eq] at hp
  exact ⟨hmem, hp.1, hp.2⟩

/-- Every message returned by `get_inbox_messages` is a stored message of
the caller with its recipient-deletion flag clear. -/
theorem mem_get_inbox_messages {x : Message} {db : DB} {uid skip limit : Nat}
    {u : Bool} (h : x ∈ get_inbox_messages db uid skip limit u) :
    x ∈ db.messages ∧ x.recipient_id = uid ∧
      x.is_deleted_by_recipient = false := by
  unfold get_inbox_messages at h
  have h2 := List.mem_of_mem_drop (List.mem_of_mem_take h)
  rw [mem_sortByCreatedDesc] at h2
  have h3 : x ∈ db.messages.filter (fun m =>
      m.recipient_id == uid && m.is_deleted_by_recipient == false) := by
    cases u with
    | false => simpa using h2
    | true =>
      rw [if_pos rfl] at h2
      exact (List.mem_filter.mp h2).1
  rw [List.mem_filter] at h3
  obtain ⟨hmem, hp⟩ := h3
  simp only [Bool.and_eq_true, beq_iff_eq] at hp
  exact ⟨hmem, hp.1, hp.2⟩

/-- The inbox pipeline commutes with a per-row rewrite that preserves the
columns it reads (recipient, recipient-deletion flag, read flag,
creation time). -/
theorem get_inbox_messages_map (db db1 : DB) (f : Message → Message)
    (hmsgs : db1.messages = db.messages.map f)
    (hrec : ∀ x, (f x).recipient_id = x.recipient_id)
    (hdelr : ∀ x, (f x).is_deleted_by_recipient = x.is_deleted_by_recipient)
    (hread : ∀ x, (f x).is_read = x.is_read)
    (hca : ∀ x, (f x).created_at = x.created_at)
    (uid skip limit : Nat) (u : Bool) :
    get_inbox_messages db1 uid skip limit u =
      (get_inbox_messages db uid skip limit u).map f := by
  unfold get_inbox_messages
  rw [hmsgs]
  rw [List.filter_map]
  have h1 : ((fun m : Message =>
      m.recipient_id == uid && m.is_deleted_by_recipient == false) ∘ f) =
      (fun m : Message =>
        m.recipient_id == uid && m.is_deleted_by_recipient == false) := by
    funext x
    simp [Function.comp, hrec, hdelr]
  rw [h1]
  cases u with
  | false =>
    simp only [Bool.false_eq_true, if_false]
    rw [sortByCreatedDesc_map f hca, ← List.map_drop, ← List.map_take]
  | true =>
    simp only [if_true]
    rw [List.filter_map]
    have h2 : ((fun m : Message => m.is_read == false) ∘ f) =
        (fun m : Message => m.is_read == false) := by
      funext x
      simp [Function.comp, hread]
    rw [h2, sortByCreatedDesc_map f hca, ← List.map_drop, ← List.map_take]

/-- The sent-box pipeline commutes with a per-row rewrite that preserves
the columns it reads (sender, sender-deletion flag, creation time). -/
theorem get_sent_messages_map (db db1 : DB) (f : Message → Message)
    (hmsgs : db1.messages = db.messages.map f)
    (hsen : ∀ x, (f x).sender_id = x.sender_id)
    (hdels : ∀ x, (f x).is_deleted_by_sender = x.is_deleted_by_sender)
    (hca : ∀ x, (f x).created_at = x.created_at)
    (uid skip limit : Nat) :
    get_sent_messages db1 uid skip limit =
      (get_sent_messages db uid skip limit).map f := by
  simp only [get_sent_messages]
  rw [hmsgs]
  rw [List.filter_map]
  have h1 : ((fun m : Message =>
      m.sender_id == uid && m.is_deleted_by_sender == false) ∘ f) =
      (fun m : Message =>
        m.sender_id == uid && m.is_deleted_by_sender == false) := by
    funext x
    simp [Function.comp, hsen, hdels]
  rw [h1, sortByCreatedDesc_map f hca, ← List.map_drop, ← List.map_take]

/-- Sets the sender-deletion flag of the row with id `mid`, leaving every
other row and every other column unchanged. -/
def setDeletedBySender (mid : Nat) (x : Message) : Message :=
  if x.id = mid then { x with is_deleted_by_sender := true } else x

/-- Sets the recipient-deletion flag of the row with id `mid`, leaving
every other row and every other column unchanged. -/
def setDeletedByRecipient (mid : Nat) (x : Message) : Message :=
  if x.id = mid then { x with is_deleted_by_recipient := true } else x

theorem setDeletedBySender_fields (mid : Nat) (x : Message) :
    (setDeletedBySender mid x).id = x.id ∧
    (setDeletedBySender mid x).sender_id = x.sender_id ∧
    (setDeletedBySender mid x).recipient_id = x.recipient_id ∧
    (setDeletedBySender mid x).created_at = x.created_at ∧
    (setDeletedBySender mid x).is_read = x.is_read ∧
    (setDeletedBySender mid x).is_deleted_by_recipient =
      x.is_deleted_by_recipient := by
  unfold setDeletedBySender
  split <;> exact ⟨rfl, rfl, rfl, rfl, rfl, rfl⟩

theorem setDeletedByRecipient_fields (mid : Nat) (x : Message) :
    (setDeletedByRecipient mid x).id = x.id ∧
    (setDeletedByRecipient mid x).sender_id = x.sender_id ∧
    (setDeletedByRecipient mid x).recipient_id = x.recipient_id ∧
    (setDeletedByRecipient mid x).created_at = x.created_at ∧
    (setDeletedByRecipient mid x).is_read = x.is_read ∧
    (setDeletedByRecipient mid x).is_deleted_by_sender =
      x.is_deleted_by_sender := by
  unfold setDeletedByRecipient
  split <;> exact ⟨rfl, rfl, rfl, rfl, rfl, rfl⟩

/-- Under the primary-key invariant, two stored rows with the same id are
the same row. -/
theorem eq_of_mem_of_id_eq :
    ∀ {l : List Message}, l.Pairwise (fun a b => a.id ≠ b.id) →
      ∀ {x y : Message}, x ∈ l → y ∈ l → x.id = y.id → x = y := by
  intro l
  induction l with
  | nil =>
    intro _ x y hx
    simp at hx
  | cons a t ih =>
    intro h x y hx hy hxy
    obtain ⟨h1, h2⟩ := List.pairwise_cons.mp h
    rcases List.mem_cons.mp hx with rfl | hx'
    · rcases List.mem_cons.mp hy with rfl | hy'
      · rfl
      · exact absurd hxy (h1 y hy')
    · rcases List.mem_cons.mp hy with rfl | hy'
      · exact absurd hxy.symm (h1 x hx')
      · exact ih h2 hx' hy' hxy

/-- Under the primary-key invariant, writing back the found row with its
sender-deletion flag set is the per-row rewrite `setDeletedBySender`. -/
theorem updateMessage_delSender (db : DB) (m : Message)
    (huniq : db.messages.Pairwise (fun a b => a.id ≠ b.id))
    (hm : m ∈ db.messages) :
    (updateMessage db { m with is_deleted_by_sender := true }).messages =
      db.messages.map (setDeletedBySender m.id) := by
  unfold updateMessage
  apply List.map_congr_left
  intro x hx
  by_cases hxm : x.id = m.id
  · have hxe : x = m := eq_of_mem_of_id_eq huniq hx hm hxm
    subst hxe
    simp [setDeletedBySender]
  · simp [setDeletedBySender, hxm]

/-- Under the primary-key invariant, writing back the found row with its
recipient-deletion flag set is the per-row rewrite `setDeletedByRecipient`. -/
theorem updateMessage_delRecipient (db : DB) (m : Message)
    (huniq : db.messages.Pairwise (fun a b => a.id ≠ b.id))
    (hm : m ∈ db.messages) :
    (updateMessage db { m with is_deleted_by_recipient := true }).messages =
      db.messages.map (setDeletedByRecipient m.id) := by
  unfold updateMessage
  apply List.map_congr_left
  intro x hx
  by_cases hxm : x.id = m.id
  · have hxe : x = m := eq_of_mem_of_id_eq huniq hx hm hxm
    subst hxe
    simp [setDeletedByRecipient]
  · simp [setDeletedByRecipient, hxm]

/-- C7: for a message visible to both parties, SoftDelete by the sender
removes it from the sender's ListSent while the recipient's ListInbox ids
and GetById are unaffected (only the sender-deletion flag of that one row
changes); symmetrically, SoftDelete by the recipient removes it from the
recipient's ListInbox/GetById while the sender's ListSent is unchanged;
no other row or column of the store changes. -/
theorem soft_delete_frame (db : DB) (m : Message)
    (huniq : db.messages.Pairwise (fun a b => a.id ≠ b.id))
    (hfind : db.messages.find? (fun x => x.id == m.id) = some m)
    (hne : m.sender_id ≠ m.recipient_id)
    (hds : m.is_deleted_by_sender = false)
    (hdr : m.is_deleted_by_recipient = false) :
    ((delete_message db m.id m.sender_id).2 = .ok () ∧
     (delete_message db m.id m.sender_id).1.messages =
       db.messages.map (setDeletedBySender m.id) ∧
     (∀ skip limit : Nat, m.id ∉
       (get_sent_messages (delete_message db m.id m.sender_id).1
         m.sender_id skip limit).map (fun x => x.id)) ∧
     (∀ (skip limit : Nat) (u : Bool),
       (get_inbox_messages (delete_message db m.id m.sender_id).1
         m.recipient_id skip limit u).map (fun x => x.id) =
       (get_inbox_messages db m.recipient_id skip limit u).map
         (fun x => x.id)) ∧
     get_message_by_id (delete_message db m.id m.sender_id).1 m.id
       m.recipient_id = .ok { m with is_deleted_by_sender := true }) ∧
    ((delete_message db m.id m.recipient_id).2 = .ok () ∧
     (delete_message db m.id m.recipient_id).1.messages =
       db.messages.map (setDeletedByRecipient m.id) ∧
     (∀ (skip limit : Nat) (u : Bool), m.id ∉
       (get_inbox_messages (delete_message db m.id m.recipient_id).1
         m.recipient_id skip limit u).map (fun x => x.id)) ∧
     (∀ skip limit : Nat,
       (get_sent_messages (delete_message db m.id m.recipient_id).1
         m.sender_id skip limit).map (fun x => x.id) =
       (get_sent_messages db m.sender_id skip limit).map (fun x => x.id)) ∧
     get_message_by_id (delete_message db m.id m.recipient_id).1 m.id
       m.recipient_id = .error Err.NOT_FOUND ∧
     get_message_by_id (delete_message db m.id m.recipient_id).1 m.id
       m.sender_id = .ok { m with is_deleted_by_recipient := true }) := by
  have hm : m ∈ db.messages := List.mem_of_find?_eq_some hfind
  constructor
  · have hok_s : get_message_by_id db m.id m.sender_id = .ok m :=
      (get_message_by_id_ok_iff db m.id m.sender_id m).mpr
        ⟨hfind, Or.inl rfl, fun _ => hds, fun _ => hdr⟩
    have hdel_s : delete_message db m.id m.sender_id =
        (updateMessage db { m with is_deleted_by_sender := true }, .ok ()) := by
      unfold delete_message
      rw [hok_s]
      simp
    have hmsgs_s : (delete_message db m.id m.sender_id).1.messages =
        db.messages.map (setDeletedBySender m.id) := by
      rw [hdel_s]
      exact updateMessage_delSender db m huniq hm
    refine ⟨by rw [hdel_s], hmsgs_s, ?_, ?_, ?_⟩
    · intro skip limit hmem
      obtain ⟨x, hx, hxid⟩ := List.mem_map.mp hmem
      obtain ⟨hx1, hx2, hx3⟩ := mem_get_sent_messages hx
      rw [hmsgs_s] at hx1
      obtain ⟨y, hy, hyx⟩ := List.mem_map.mp hx1
      have hyid : (setDeletedBySender m.id y).id = y.id :=
        (setDeletedBySender_fields m.id y).1
      have hym : y.id = m.id := by
        rw [← hyx, hyid] at hxid
        exact hxid
      have hxval : x = { y with is_deleted_by_sender := true } := by
        rw [← hyx]
        unfold setDeletedBySender
        rw [if_pos hym]
      rw [hxval] at hx3
      simp at hx3
    · intro skip limit u
      have hmap := get_inbox_messages_map db (delete_message db m.id m.sender_id).1
        (setDeletedBySender m.id) hmsgs_s
        (fun x => (setDeletedBySender_fields m.id x).2.2.1)
        (fun x => (setDeletedBySender_fields m.id x).2.2.2.2.2)
        (fun x => (setDeletedBySender_fields m.id x).2.2.2.2.1)
        (fun x => (setDeletedBySender_fields m.id x).2.2.2.1)
        m.recipient_id skip limit u
      rw [hmap, List.map_map]
      apply List.map_congr_left
      intro x _
      simp only [Function.comp]
      exact (setDeletedBySender_fields m.id x).1
    · rw [get_message_by_id_ok_iff]
      refine ⟨?_, Or.inr rfl, ?_, fun _ => hdr⟩
      · rw [hdel_s, find?_updateMessage, hfind]
        simp
      · intro h
        exact absurd h hne
  · have hok_r : get_message_by_id db m.id m.recipient_id = .ok m :=
      (get_message_by_id_ok_iff db m.id m.recipient_id m).mpr
        ⟨hfind, Or.inr rfl, fun _ => hds, fun _ => hdr⟩
    have hdel_r : delete_message db m.id m.recipient_id =
        (updateMessage db { m with is_deleted_by_recipient := true }, .ok ()) := by
      unfold delete_message
      rw [hok_r]
      have hsne : (m.sender_id == m.recipient_id) = false := by
        simp [hne]
      simp [hsne]
    have hmsgs_r : (delete_message db m.id m.recipient_id).1.messages =
        db.messages.map (setDeletedByRecipient m.id) := by
      rw [hdel_r]
      exact updateMessage_delRecipient db m huniq hm
    refine ⟨by rw [hdel_r], hmsgs_r, ?_, ?_, ?_, ?_⟩
    · intro skip limit u hmem
      obtain ⟨x, hx, hxid⟩ := List.mem_map.mp hmem
      obtain ⟨hx1, hx2, hx3⟩ := mem_get_inbox_messages hx
      rw [hmsgs_r] at hx1
      obtain ⟨y, hy, hyx⟩ := List.mem_map.mp hx1
      have hyid : (setDeletedByRecipient m.id y).id = y.id :=
        (setDeletedByRecipient_fields m.id y).1
      have hym : y.id = m.id := by
        rw [← hyx, hyid] at hxid
        exact hxid
      have hxval : x = { y with is_deleted_by_recipient := true } := by
        rw [← hyx]
        unfold setDeletedByRecipient
        rw [if_pos hym]
      rw [hxval] at hx3
      simp at hx3
    · intro skip limit
      have hmap := get_sent_messages_map db (delete_message db m.id m.recipient_id).1
        (setDeletedByRecipient m.id) hmsgs_r
        (fun x => (setDeletedByRecipient_fields m.id x).2.1)
        (fun x => (setDeletedByRecipient_fields m.id x).2.2.2.2.2)
        (fun x => (setDeletedByRecipient_fields m.id x).2.2.2.1)
        m.sender_id skip limit
      rw [hmap, List.map_map]
      apply List.map_congr_left
      intro x _
      simp only [Function.comp]
      exact (setDeletedByRecipient_fields m.id x).1
    · rw [get_message_by_id_notfound_iff]
      right
      refine ⟨{ m with is_deleted_by_recipient := true }, ?_, Or.inr ⟨rfl, rfl⟩⟩
      rw [hdel_r, find?_updateMessage, hfind]
      simp
    · rw [get_message_by_id_ok_iff]
      refine ⟨?_, Or.inl rfl, fun _ => hds, ?_⟩
      · rw [hdel_r, find?_updateMessage, hfind]
        simp
      · intro h
        exact absurd h.symm hne

/-- A message between users 1 and 2, deleted by neither. -/
def msgBoth : Message :=
  { id := 1, sender_id := 1, recipient_id := 2, subject := "s", body := "b",
    created_at := 0 }

/-- A one-message store holding `msgBoth`. -/
def dbBoth : DB :=
  { users := [], messages := [msgBoth], attachments := [],
    next_message_id := 2, next_attachment_id := 1 }

/-- C7 witness: after the sender deletes, the sent list loses the message
while the recipient's inbox ids and GetById are unaffected; after the
recipient deletes, the recipient's GetById fails NOT_FOUND. -/
theorem soft_delete_frame_witness :
    dbBoth.messages.Pairwise (fun a b => a.id ≠ b.id) ∧
    dbBoth.messages.find? (fun x => x.id == msgBoth.id) = some msgBoth ∧
    msgBoth.sender_id ≠ msgBoth.recipient_id ∧
    msgBoth.is_deleted_by_sender = false ∧
    msgBoth.is_deleted_by_recipient = false ∧
    msgBoth.id ∉ (get_sent_messages
      (delete_message dbBoth msgBoth.id msgBoth.sender_id).1
      msgBoth.sender_id 0 50).map (fun x => x.id) ∧
    (get_inbox_messages (delete_message dbBoth msgBoth.id msgBoth.sender_id).1
      msgBoth.recipient_id 0 50 false).map (fun x => x.id) =
      (get_inbox_messages dbBoth msgBoth.recipient_id 0 50 false).map
        (fun x => x.id) ∧
    get_message_by_id (delete_message dbBoth msgBoth.id msgBoth.sender_id).1
      msgBoth.id msgBoth.recipient_id =
      .ok { msgBoth with is_deleted_by_sender := true } ∧
    get_message_by_id (delete_message dbBoth msgBoth.id msgBoth.recipient_id).1
      msgBoth.id msgBoth.recipient_id = .error Err.NOT_FOUND :=
  ⟨by decide, by decide, by decide, by decide, by decide,
   (soft_delete_frame dbBoth msgBoth (by decide) (by decide) (by decide)
      (by decide) (by decide)).1.2.2.1 0 50,
   (soft_delete_frame dbBoth msgBoth (by decide) (by decide) (by decide)
      (by decide) (by decide)).1.2.2.2.1 0 50 false,
   (soft_delete_frame dbBoth msgBoth (by decide) (by decide) (by decide)
      (by decide) (by decide)).1.2.2.2.2,
   (soft_delete_frame dbBoth msgBoth (by decide) (by decide) (by decide)
      (by decide) (by decide)).2.2.2.2.2.1⟩

/-- The request-visible columns of a stored attachment row. -/
def attachmentCols (a : Attachment) :
    String × Option Int × Option String × Rat × Option String :=
  (a.attachment_type, a.item_id, a.item_name, a.quantity, a.attachment_data)

/-- The columns of a requested attachment. -/
def attachmentCreateCols (a : AttachmentCreate) :
    String × Option Int × Option String × Rat × Option String :=
  (a.attachment_type, a.item_id, a.item_name, a.quantity, a.attachment_data)

/-- The attachment rows built for a send carry exactly the requested
columns, in order, and all belong to the owning message. -/
theorem mkAttachments_spec (message_id : Nat) (l : List AttachmentCreate) :
    ∀ firstId : Nat,
      (mkAttachments firstId message_id l).map attachmentCols =
        l.map attachmentCreateCols ∧
      ∀ a ∈ mkAttachments firstId message_id l, a.message_id = message_id := by
  induction l with
  | nil =>
    intro f
    exact ⟨rfl, by simp [mkAttachments]⟩
  | cons a rest ih =>
    intro f
    refine ⟨?_, ?_⟩
    · simp [mkAttachments, attachmentCols, attachmentCreateCols, (ih (f + 1)).1]
    · intro x hx
      rcases List.mem_cons.mp hx with rfl | hx'
      · rfl
      · exact (ih (f + 1)).2 x hx'

/-- The message row `create_message` commits on success. -/
def newMessage (db : DB) (now : Int) (md : MessageCreate) (sid : Nat) : Message :=
  { id := db.next_message_id, sender_id := sid,
    recipient_id := md.recipient_id, subject := md.subject,
    body := md.body, created_at := now }

/-- `create_message` either rejects leaving the store untouched, or commits
the one new message row together with its attachment rows. -/
theorem create_message_shape (cfg : Settings) (db : DB) (now : Int)
    (md : MessageCreate) (sid : Nat) :
    (∃ e, create_message cfg db now md sid = (db, Except.error e)) ∨
    (∃ msg : Message,
      msg = newMessage db now md sid ∧
      create_message cfg db now md sid =
        ({ users := db.users,
           messages := db.messages ++ [msg],
           attachments := db.attachments ++
             mkAttachments db.next_attachment_id msg.id (md.attachments.getD []),
           next_message_id := db.next_message_id + 1,
           next_attachment_id := db.next_attachment_id +
             (mkAttachments db.next_attachment_id msg.id
               (md.attachments.getD [])).length }, Except.ok msg)) := by
  unfold create_message
  cases findUser db md.recipient_id with
  | none => exact Or.inl ⟨_, rfl⟩
  | some recipient =>
    dsimp only
    by_cases hact : (!recipient.is_active) = true
    · rw [if_pos hact]
      exact Or.inl ⟨_, rfl⟩
    · rw [if_neg hact]
      by_cases hself : (sid == md.recipient_id) = true
      · rw [if_pos hself]
        exact Or.inl ⟨_, rfl⟩
      · rw [if_neg hself]
        cases check_spam_protection cfg db.messages now sid md.recipient_id
            md.subject md.body with
        | some e => exact Or.inl ⟨e, rfl⟩
        | none => exact Or.inr ⟨_, rfl, rfl⟩

/-- C8: a send is persisted atomically with all of its attachments — on
success the store gains exactly one message row (with the generated id and
the request's fields) and exactly the requested attachment rows, all owned
by that message; on any rejection the store is unchanged. -/
theorem create_message_atomic (cfg : Settings) (db : DB) (now : Int)
    (md : MessageCreate) (sid : Nat) :
    (∀ e, (create_message cfg db now md sid).2 = .error e →
      (create_message cfg db now md sid).1 = db) ∧
    (∀ msg, (create_message cfg db now md sid).2 = .ok msg →
      msg.id = db.next_message_id ∧ msg.sender_id = sid ∧
      msg.recipient_id = md.recipient_id ∧ msg.subject = md.subject ∧
      msg.body = md.body ∧ msg.created_at = now ∧
      (create_message cfg db now md sid).1.users = db.users ∧
      (create_message cfg db now md sid).1.messages = db.messages ++ [msg] ∧
      (create_message cfg db now md sid).1.attachments = db.attachments ++
        mkAttachments db.next_attachment_id msg.id (md.attachments.getD []) ∧
      (mkAttachments db.next_attachment_id msg.id
        (md.attachments.getD [])).map attachmentCols =
        (md.attachments.getD []).map attachmentCreateCols ∧
      ∀ a ∈ mkAttachments db.next_attachment_id msg.id
        (md.attachments.getD []), a.message_id = msg.id) := by
  rcases create_message_shape cfg db now md sid with ⟨e0, heq⟩ | ⟨msg0, hmsg0, heq⟩
  · constructor
    · intro e _
      rw [heq]
    · intro msg hok
      rw [heq] at hok
      simp at hok
  · constructor
    · intro e he
      rw [heq] at he
      simp at he
    · intro msg hok
      rw [heq] at hok
      simp only at hok
      have hmsg : msg0 = msg := Except.ok.inj hok
      subst hmsg
      subst hmsg0
      refine ⟨rfl, rfl, rfl, rfl, rfl, rfl, ?_, ?_, ?_,
        (mkAttachments_spec (newMessage db now md sid).id
          (md.attachments.getD []) db.next_attachment_id).1,
        (mkAttachments_spec (newMessage db now md sid).id
          (md.attachments.getD []) db.next_attachment_id).2⟩
      · rw [heq]
      · rw [heq]
      · rw [heq]

/-- Sender user for the witnesses below. -/
def userA : User := { id := 1, username := "a", email := "a@x", is_active := true }

/-- Recipient user for the witnesses below. -/
def userB : User := { id := 2, username := "b", email := "b@x", is_active := true }

/-- A requested attachment. -/
def attReq : AttachmentCreate :=
  { attachment_type := "gold", item_id := some 7, item_name := some "coin",
    quantity := 5, attachment_data := none }

/-- A send request from user 1 to user 2 with one attachment. -/
def mdReq : MessageCreate :=
  { subject := "s", body := "b", recipient_id := 2,
    attachments := some [attReq] }

/-- An empty store with two users. -/
def dbSend : DB :=
  { users := [userA, userB], messages := [], attachments := [],
    next_message_id := 1, next_attachment_id := 1 }

/-- C8 witness: the admitted send stores exactly the message and its
attachment; the rejected self-send leaves the store unchanged. -/
theorem create_message_atomic_witness :
    (create_message {} dbSend 100 mdReq 1).2 =
      .ok (newMessage dbSend 100 mdReq 1) ∧
    (create_message {} dbSend 100 mdReq 1).1.messages =
      dbSend.messages ++ [newMessage dbSend 100 mdReq 1] ∧
    (create_message {} dbSend 100 mdReq 1).1.attachments = dbSend.attachments ++
      mkAttachments dbSend.next_attachment_id (newMessage dbSend 100 mdReq 1).id
        (mdReq.attachments.getD []) ∧
    (create_message {} dbSend 100 { mdReq with recipient_id := 1 } 1).2 =
      .error Err.SELF_SEND ∧
    (create_message {} dbSend 100 { mdReq with recipient_id := 1 } 1).1 = dbSend :=
  ⟨by rfl,
   ((create_message_atomic {} dbSend 100 mdReq 1).2
      (newMessage dbSend 100 mdReq 1) (by rfl)).2.2.2.2.2.2.2.1,
   ((create_message_atomic {} dbSend 100 mdReq 1).2
      (newMessage dbSend 100 mdReq 1) (by rfl)).2.2.2.2.2.2.2.2.1,
   by rfl,
   (create_message_atomic {} dbSend 100 { mdReq with recipient_id := 1 } 1).1
      Err.SELF_SEND (by rfl)⟩

/-- C9: whenever the requested recipient id equals the sender id (and the
corresponding user row exists and is active, as it does for an
authenticated sender), `create_message` rejects SELF_SEND — whatever the
message history, i.e. regardless of the sender's rate-limit state — and
the store is unchanged. -/
theorem self_send_always_rejected (cfg : Settings) (db : DB) (now : Int)
    (md : MessageCreate) (sid : Nat) (u : User)
    (hrec : md.recipient_id = sid)
    (hu : findUser db md.recipient_id = some u)
    (hact : u.is_active = true) :
    (create_message cfg db now md sid).2 = .error Err.SELF_SEND ∧
    (create_message cfg db now md sid).1 = db := by
  have hres : create_message cfg db now md sid = (db, .error Err.SELF_SEND) := by
    unfold create_message
    rw [hu]
    dsimp only
    simp [hact, hrec]
  exact ⟨by rw [hres], by rw [hres]⟩

/-- A self-send request: user 1 writing to user 1. -/
def mdSelf : MessageCreate := { mdReq with recipient_id := 1 }

/-- A store where user 1 has ten identical messages in the last minute:
both the duplicate condition and the per-minute cap are saturated. -/
def dbBusy : DB :=
  { users := [userA, userB], messages := msgsBothFailing, attachments := [],
    next_message_id := 11, next_attachment_id := 1 }

/-- C9 witness: the self-send is rejected SELF_SEND even on a history that
is simultaneously duplicate and over the per-minute cap, and the store is
untouched. -/
theorem self_send_always_rejected_witness :
    mdSelf.recipient_id = 1 ∧
    findUser dbBusy mdSelf.recipient_id = some userA ∧
    userA.is_active = true ∧
    duplicateHit {} dbBusy.messages 1000 1 2 "s" "b" = true ∧
    ({} : Settings).MAX_MESSAGES_PER_MINUTE ≤
      messagesLastMinute dbBusy.messages 1000 1 ∧
    (create_message {} dbBusy 1000 mdSelf 1).2 = .error Err.SELF_SEND ∧
    (create_message {} dbBusy 1000 mdSelf 1).1 = dbBusy :=
  ⟨by decide, by decide, by decide, by decide, by decide,
   (self_send_always_rejected {} dbBusy 1000 mdSelf 1 userA (by decide)
      (by decide) (by decide)).1,
   (self_send_always_rejected {} dbBusy 1000 mdSelf 1 userA (by decide)
      (by decide) (by decide)).2⟩

/-- The columns of a message row that the rate limiter reads: sender,
recipient, subject, body, creation time. No deletion flag appears. -/
def msgCore (m : Message) : Nat × Nat × String × String × Int :=
  (m.sender_id, m.recipient_id, m.subject, m.body, m.created_at)

theorem any_map_general {α β : Type} (f : α → β) (p : β → Bool) :
    ∀ l : List α, (l.map f).any p = l.any (fun x => p (f x)) := by
  intro l
  induction l with
  | nil => rfl
  | cons a t ih => simp [ih]

theorem msgCore_setDeletedBySender (mid : Nat) (x : Message) :
    msgCore (setDeletedBySender mid x) = msgCore x := by
  unfold setDeletedBySender
  split <;> rfl

theorem msgCore_setDeletedByRecipient (mid : Nat) (x : Message) :
    msgCore (setDeletedByRecipient mid x) = msgCore x := by
  unfold setDeletedByRecipient
  split <;> rfl

/-- All four spam checks read only the `msgCore` columns: two histories
with the same `msgCore` projection are indistinguishable to the
rate limiter. -/
theorem check_spam_protection_congr (cfg : Settings)
    (msgs1 msgs2 : List Message)
    (h : msgs1.map msgCore = msgs2.map msgCore) (now : Int) (s r : Nat)
    (subject body : String) :
    check_spam_protection cfg msgs1 now s r subject body =
      check_spam_protection cfg msgs2 now s r subject body := by
  have hdup : duplicateHit cfg msgs1 now s r subject body =
      duplicateHit cfg msgs2 now s r subject body := by
    have e1 : ∀ msgs : List Message,
        duplicateHit cfg msgs now s r subject body =
        (msgs.map msgCore).any (fun c =>
          c.1 == s && c.2.1 == r && c.2.2.1 == subject && c.2.2.2.1 == body &&
          decide (now - (cfg.DUPLICATE_MESSAGE_WINDOW_SECONDS : Int) ≤
            c.2.2.2.2)) := by
      intro msgs
      rw [any_map_general]
      rfl
    rw [e1 msgs1, e1 msgs2, h]
  have hrt : recentMessageTime cfg msgs1 now s =
      recentMessageTime cfg msgs2 now s := by
    have e2 : ∀ msgs : List Message,
        recentMessageTime cfg msgs now s =
        (((msgs.map msgCore).filter (fun c =>
          c.1 == s && decide (now - (cfg.MIN_SECONDS_BETWEEN_MESSAGES : Int) ≤
            c.2.2.2.2))).map (fun c => c.2.2.2.2)).max? := by
      intro msgs
      unfold recentMessageTime
      conv_rhs => rw [List.filter_map]
      rw [List.map_map]
      rfl
    rw [e2 msgs1, e2 msgs2, h]
  have hc1 : messagesLastMinute msgs1 now s = messagesLastMinute msgs2 now s := by
    have e3 : ∀ msgs : List Message,
        messagesLastMinute msgs now s =
        ((msgs.map msgCore).filter (fun c =>
          c.1 == s && decide (now - 60 ≤ c.2.2.2.2))).length := by
      intro msgs
      unfold messagesLastMinute
      conv_rhs => rw [List.filter_map]
      rw [List.length_map]
      rfl
    rw [e3 msgs1, e3 msgs2, h]
  have hc2 : messagesLastHour msgs1 now s = messagesLastHour msgs2 now s := by
    have e4 : ∀ msgs : List Message,
        messagesLastHour msgs now s =
        ((msgs.map msgCore).filter (fun c =>
          c.1 == s && decide (now - 3600 ≤ c.2.2.2.2))).length := by
      intro msgs
      unfold messagesLastHour
      conv_rhs => rw [List.filter_map]
      rw [List.length_map]
      rfl
    rw [e4 msgs1, e4 msgs2, h]
  unfold check_spam_protection minIntervalHit
  rw [hdup, hrt, hc1, hc2]

/-- A soft delete never changes the rate limiter's view of the history
(`msgCore` of every row) nor any row id. -/
theorem delete_message_frame_core (db : DB) (mid uid : Nat)
    (huniq : db.messages.Pairwise (fun a b => a.id ≠ b.id)) :
    ((delete_message db mid uid).1).messages.map msgCore =
      db.messages.map msgCore ∧
    ((delete_message db mid uid).1).messages.map (fun x => x.id) =
      db.messages.map (fun x => x.id) := by
  unfold delete_message
  cases hg : get_message_by_id db mid uid with
  | error e => exact ⟨rfl, rfl⟩
  | ok m =>
    obtain ⟨hfm, _, _, _⟩ := (get_message_by_id_ok_iff db mid uid m).mp hg
    have hm : m ∈ db.messages := List.mem_of_find?_eq_some hfm
    dsimp only
    by_cases hsu : (m.sender_id == uid) = true
    · rw [if_pos hsu]
      have hupd := updateMessage_delSender db m huniq hm
      constructor
      · rw [hupd, List.map_map]
        apply List.map_congr_left
        intro x _
        exact msgCore_setDeletedBySender m.id x
      · rw [hupd, List.map_map]
        apply List.map_congr_left
        intro x _
        exact (setDeletedBySender_fields m.id x).1
    · rw [if_neg hsu]
      by_cases hru : (m.recipient_id == uid) = true
      · rw [if_pos hru]
        have hupd := updateMessage_delRecipient db m huniq hm
        constructor
        · rw [hupd, List.map_map]
          apply List.map_congr_left
          intro x _
          exact msgCore_setDeletedByRecipient m.id x
        · rw [hupd, List.map_map]
          apply List.map_congr_left
          intro x _
          exact (setDeletedByRecipient_fields m.id x).1
      · rw [if_neg hru]
        exact ⟨rfl, rfl⟩

/-- Applies a sequence of SoftDelete operations (message id, viewer id) to
the store, keeping whatever state each call leaves behind. -/
def applyDeletes (db : DB) (ops : List (Nat × Nat)) : DB :=
  ops.foldl (fun d op => (delete_message d op.1 op.2).1) db

/-- C10: soft deletion never affects admission — after any sequence of
SoftDelete operations the rate limiter decides every subsequent send
exactly as it would on the undeleted store, DUPLICATE detection included. -/
theorem soft_delete_preserves_admission (cfg : Settings) (db : DB)
    (ops : List (Nat × Nat)) (now : Int) (s r : Nat) (subject body : String)
    (huniq : db.messages.Pairwise (fun a b => a.id ≠ b.id)) :
    check_spam_protection cfg (applyDeletes db ops).messages now s r
      subject body =
      check_spam_protection cfg db.messages now s r subject body := by
  have key : ∀ (ops : List (Nat × Nat)) (db : DB),
      db.messages.Pairwise (fun a b => a.id ≠ b.id) →
      (applyDeletes db ops).messages.map msgCore = db.messages.map msgCore := by
    intro ops
    induction ops with
    | nil =>
      intro db _
      rfl
    | cons op rest ih =>
      intro db hdb
      have h1 := delete_message_frame_core db op.1 op.2 hdb
      have hpair : ((delete_message db op.1 op.2).1).messages.Pairwise
          (fun a b => a.id ≠ b.id) := by
        have h2 : (((delete_message db op.1 op.2).1).messages.map
            (fun x => x.id)).Pairwise (fun a b => a ≠ b) := by
          rw [h1.2]
          exact List.pairwise_map.mpr hdb
        exact List.pairwise_map.mp h2
      have hstep : applyDeletes db (op :: rest) =
          applyDeletes (delete_message db op.1 op.2).1 rest := rfl
      rw [hstep, ih (delete_message db op.1 op.2).1 hpair, h1.1]
  exact check_spam_protection_congr cfg _ _ (key ops db huniq) now s r
    subject body

/-- C10 witness: user 1 soft-deletes their sent message; the duplicate
check still fires for the identical resend. -/
theorem soft_delete_preserves_admission_witness :
    dbBoth.messages.Pairwise (fun a b => a.id ≠ b.id) ∧
    check_spam_protection {} (applyDeletes dbBoth [(1, 1)]).messages 100 1 2
      "s" "b" =
      check_spam_protection {} dbBoth.messages 100 1 2 "s" "b" ∧
    check_spam_protection {} (applyDeletes dbBoth [(1, 1)]).messages 100 1 2
      "s" "b" = some Err.DUPLICATE :=
  ⟨by decide,
   soft_delete_preserves_admission {} dbBoth [(1, 1)] 100 1 2 "s" "b"
     (by decide),
   by decide⟩
